import Mathlib

/-!
Verification of the Bitbucket automatic PR reviewer service.

This file gives a shallow embedding, in Lean, of the parts of the service
that the specification talks about:

* the JSON values produced by `JSON.parse` and the strict JSON grammar it
  accepts (used by the webhook body handling and by the result interpreter);
* the regex extraction of the fenced ```json ... ``` metrics block from the
  review agent's captured stdout, and the verdict/metrics recording logic of
  `processPullRequest` (src/claude.js);
* the review queue worker (`processQueue` in src/index.js);
* webhook signature verification and workspace authorization
  (`verifyBitbucketSignature` / `validateBitbucketWebhook` in src/index.js);
* the Zod payload schema (`BitbucketPayloadSchema` in src/schemas.js);
* the repository synchronizer and diff extractor
  (`ensureProjectExists` / `getDiffFromMergeBase` in src/git.js);
* the external review-agent supervision (timeout timer) and the
  error-type classification of failed reviews.

External effects (filesystem, child processes, HMAC) are modelled by
explicit oracles and operation traces, so every definition is executable.
-/

namespace PrReviewer

/-! ## JSON values and `JSON.parse`

`JSON.parse` is the parser used both by `express.json()` for webhook bodies
and by `processPullRequest` for the agent's metrics block.  Numbers are kept
as a mantissa/exponent pair `m * 10 ^ e`; the code never compares numeric
values except against `0`, so this representation is sufficient and exact.
-/

inductive Json where
  | null : Json
  | bool (b : Bool) : Json
  | num (m : Int) (e : Int) : Json
  | str (s : String) : Json
  | arr (elems : List Json) : Json
  | obj (fields : List (String × Json)) : Json
deriving Repr

/-- JavaScript truthiness of a JSON value (`undefined` is `Option.none` at
use sites).  `NaN` is not representable in JSON, so a number is truthy iff
its mantissa is nonzero. -/
def jsTruthy : Json → Bool
  | .null => false
  | .bool b => b
  | .num m _ => m ≠ 0
  | .str s => s ≠ ""
  | .arr _ => true
  | .obj _ => true

/-- Property access on a parsed JSON value, as JavaScript member access on
an object: later duplicate keys shadow earlier ones (as `JSON.parse` keeps
the last occurrence), access on a non-object yields `undefined`. -/
def jGet (j : Json) (key : String) : Option Json :=
  match j with
  | .obj fields => fields.foldl (fun acc kv => if kv.1 = key then some kv.2 else acc) none
  | _ => none

/-- Optional-chaining access along a path, as `a?.b?.c` in JavaScript. -/
def jPath (j : Json) : List String → Option Json
  | [] => some j
  | k :: ks =>
    match jGet j k with
    | some v => jPath v ks
    | none => none

/-- Whitespace accepted by the JSON grammar between tokens. -/
def isJsonWs (c : Char) : Bool :=
  c = ' ' || c = '\t' || c = '\n' || c = '\r'

/-- Drop leading JSON whitespace. -/
def skipJsonWs (cs : List Char) : List Char :=
  cs.dropWhile isJsonWs

/-- Whether a character is a hexadecimal digit. -/
def isHexChar (c : Char) : Bool :=
  c.isDigit || ('a' ≤ c && c ≤ 'f') || ('A' ≤ c && c ≤ 'F')

/-- Parse one JSON string body (the part after the opening quote), handling
the escape sequences of the JSON grammar; raw control characters below
U+0020 are rejected, as `JSON.parse` rejects them. -/
def parseJsonStringBody : List Char → Option (List Char × List Char)
  | [] => none
  | '"' :: rest => some ([], rest)
  | '\\' :: esc =>
    match esc with
    | '"' :: rest => (parseJsonStringBody rest).map (fun p => ('"' :: p.1, p.2))
    | '\\' :: rest => (parseJsonStringBody rest).map (fun p => ('\\' :: p.1, p.2))
    | '/' :: rest => (parseJsonStringBody rest).map (fun p => ('/' :: p.1, p.2))
    | 'b' :: rest => (parseJsonStringBody rest).map (fun p => ('\x08' :: p.1, p.2))
    | 'f' :: rest => (parseJsonStringBody rest).map (fun p => ('\x0c' :: p.1, p.2))
    | 'n' :: rest => (parseJsonStringBody rest).map (fun p => ('\n' :: p.1, p.2))
    | 'r' :: rest => (parseJsonStringBody rest).map (fun p => ('\r' :: p.1, p.2))
    | 't' :: rest => (parseJsonStringBody rest).map (fun p => ('\t' :: p.1, p.2))
    | 'u' :: h1 :: h2 :: h3 :: h4 :: rest =>
      if isHexChar h1 && isHexChar h2 && isHexChar h3 && isHexChar h4 then
        let code := (hexVal h1) * 4096 + (hexVal h2) * 256 + (hexVal h3) * 16 + hexVal h4
        (parseJsonStringBody rest).map (fun p => (Char.ofNat code :: p.1, p.2))
      else none
    | _ => none
  | c :: rest =>
    if c.toNat < 32 then none
    else (parseJsonStringBody rest).map (fun p => (c :: p.1, p.2))
where
  /-- Numeric value of a hexadecimal digit. -/
  hexVal (c : Char) : Nat :=
    if c.isDigit then c.toNat - '0'.toNat
    else if 'a' ≤ c && c ≤ 'f' then c.toNat - 'a'.toNat + 10
    else c.toNat - 'A'.toNat + 10

/-- Accumulate the value of a run of decimal digits onto `acc`. -/
def digitsVal (acc : Nat) : List Char → Nat
  | [] => acc
  | c :: rest => digitsVal (acc * 10 + (c.toNat - '0'.toNat)) rest

/-- Parse a JSON number per the strict JSON number grammar
(`-? (0 | [1-9][0-9]*) (. [0-9]+)? ([eE] [+-]? [0-9]+)?`), returning it as
mantissa and power-of-ten exponent. -/
def parseJsonNumber (cs : List Char) : Option ((Int × Int) × List Char) := do
  let (neg, cs) := match cs with
    | '-' :: rest => (true, rest)
    | _ => (false, cs)
  let (intDigits, cs) ← match cs with
    | '0' :: rest => some (['0'], rest)
    | c :: rest =>
      if c.isDigit && c ≠ '0' then
        let (more, rest2) := rest.span Char.isDigit
        some (c :: more, rest2)
      else none
    | [] => none
  let (fracDigits, cs) ← match cs with
    | '.' :: rest =>
      let (ds, rest2) := rest.span Char.isDigit
      if ds = [] then none else some (ds, rest2)
    | _ => some (([] : List Char), cs)
  let (expVal, cs) ← match cs with
    | 'e' :: rest | 'E' :: rest =>
      let (esign, rest) := match rest with
        | '+' :: r => ((1 : Int), r)
        | '-' :: r => ((-1 : Int), r)
        | r => ((1 : Int), r)
      let (eds, rest2) := rest.span Char.isDigit
      if eds = [] then none else some (esign * (digitsVal 0 eds : Int), rest2)
    | rest => some ((0 : Int), rest)
  let mant : Nat := digitsVal 0 (intDigits ++ fracDigits)
  let m : Int := if neg then -(mant : Int) else (mant : Int)
  let e : Int := expVal - (fracDigits.length : Int)
  return ((m, e), cs)

mutual

/-- Parse one JSON value (leading whitespace allowed), with fuel bounding
the total number of recursive parsing steps. -/
def parseJsonValue (fuel : Nat) (cs : List Char) : Option (Json × List Char) :=
  match fuel with
  | 0 => none
  | fuel + 1 =>
    match skipJsonWs cs with
    | 'n' :: 'u' :: 'l' :: 'l' :: rest => some (.null, rest)
    | 't' :: 'r' :: 'u' :: 'e' :: rest => some (.bool true, rest)
    | 'f' :: 'a' :: 'l' :: 's' :: 'e' :: rest => some (.bool false, rest)
    | '"' :: rest =>
      (parseJsonStringBody rest).map (fun p => (.str (String.mk p.1), p.2))
    | '[' :: rest =>
      (match skipJsonWs rest with
       | ']' :: rest2 => some (.arr [], rest2)
       | rest2 => (parseJsonElems fuel rest2).map (fun p => (.arr p.1, p.2)))
    | '\x7b' :: rest =>
      (match skipJsonWs rest with
       | '\x7d' :: rest2 => some (.obj [], rest2)
       | rest2 => (parseJsonMembers fuel rest2).map (fun p => (.obj p.1, p.2)))
    | cs2 =>
      (parseJsonNumber cs2).map (fun p => (.num p.1.1 p.1.2, p.2))

/-- Parse a nonempty comma-separated list of array elements up to and
including the closing bracket. -/
def parseJsonElems (fuel : Nat) (cs : List Char) : Option (List Json × List Char) :=
  match fuel with
  | 0 => none
  | fuel + 1 =>
    match parseJsonValue fuel cs with
    | none => none
    | some (v, rest) =>
      match skipJsonWs rest with
      | ',' :: rest2 => (parseJsonElems fuel rest2).map (fun p => (v :: p.1, p.2))
      | ']' :: rest2 => some ([v], rest2)
      | _ => none

/-- Parse a nonempty comma-separated list of object members up to and
including the closing brace. -/
def parseJsonMembers (fuel : Nat) (cs : List Char) : Option (List (String × Json) × List Char) :=
  match fuel with
  | 0 => none
  | fuel + 1 =>
    match skipJsonWs cs with
    | '"' :: rest =>
      match parseJsonStringBody rest with
      | none => none
      | some (key, rest2) =>
        match skipJsonWs rest2 with
        | ':' :: rest3 =>
          match parseJsonValue fuel rest3 with
          | none => none
          | some (v, rest4) =>
            match skipJsonWs rest4 with
            | ',' :: rest5 =>
              (parseJsonMembers fuel rest5).map (fun p => ((String.mk key, v) :: p.1, p.2))
            | '\x7d' :: rest5 => some ([(String.mk key, v)], rest5)
            | _ => none
        | _ => none
    | _ => none

end

/-- Model of `JSON.parse(s)`: parse a complete JSON document, requiring
only trailing whitespace after the value.  Returns `none` where
`JSON.parse` would throw a `SyntaxError`. -/
def parseJson (s : String) : Option Json :=
  match parseJsonValue (4 * s.data.length + 16) s.data with
  | some (v, rest) => if skipJsonWs rest = [] then some v else none
  | none => none

/-! ## Result Interpreter (src/claude.js)

`processPullRequest` extracts the agent's metrics block from the captured
stdout with

  `stdout.match(/```json\s*\n\s*(\x7b[\s\S]*?\x7d)\s*\n\s*```/)`

(`String.match` without the global flag: the leftmost match wins, and the
group is lazy, so it captures up to the first closing brace followed by
`\s*\n\s*` and a fence).  The functions below implement exactly this
pattern.
-/

/-- Whitespace class `\\s` of JavaScript regular expressions, by code
point: space, tab, LF, CR, VT, FF, NBSP, U+1680, U+2000-U+200A, U+2028,
U+2029, U+202F, U+205F, U+3000 and U+FEFF. -/
def isJsRegexWs (c : Char) : Bool :=
  c = ' ' || c = '\t' || c = '\n' || c = '\r' || c = '\x0b' || c = '\x0c' ||
  c.toNat = 0xa0 || c.toNat = 0x1680 ||
  (0x2000 <= c.toNat && c.toNat <= 0x200a) ||
  c.toNat = 0x2028 || c.toNat = 0x2029 || c.toNat = 0x202f ||
  c.toNat = 0x205f || c.toNat = 0x3000 || c.toNat = 0xfeff

/-- After the captured group's closing brace, the pattern requires
`\s*\n\s*` followed by a closing fence: the whitespace run must contain a
newline and be followed directly by three backticks. -/
def fenceCloseOk (cs : List Char) : Bool :=
  let (w, rest) := cs.span isJsRegexWs
  w.contains '\n' && rest.take 3 = ['`', '`', '`']

/-- Lazy scan for the group's closing brace: the group ends at the first
brace whose suffix satisfies `fenceCloseOk`; every other character
(braces included) is part of the lazily matched group body. -/
def scanGroupBody (acc : List Char) : List Char → Option (List Char)
  | [] => none
  | c :: rest =>
    if c = '\x7d' && fenceCloseOk rest then some (acc.reverse ++ ['\x7d'])
    else scanGroupBody (c :: acc) rest

/-- Try to match the full fenced-JSON pattern at this exact position:
an opening ```` ```json ```` fence, `\s*\n\s*` (a whitespace run containing
a newline), the lazily captured `\x7b...\x7d` group, and a closing fence.
Returns the captured group (`match[1]` in the JavaScript code). -/
def matchFencedJsonAt (cs : List Char) : Option (List Char) :=
  if cs.take 7 = "```json".data then
    let rest := cs.drop 7
    let (w, rest2) := rest.span isJsRegexWs
    if w.contains '\n' then
      match rest2 with
      | '\x7b' :: rest3 => (scanGroupBody [] rest3).map (fun body => '\x7b' :: body)
      | _ => none
    else none
  else none

/-- Leftmost-match search over the whole string, as `String.match` without
the global flag. -/
def extractLoop : List Char → Option (List Char)
  | [] => none
  | cs@(_ :: rest) =>
    match matchFencedJsonAt cs with
    | some g => some g
    | none => extractLoop rest

/-- Model of the metrics-block extraction in `processPullRequest`: the
captured JSON text of the first position where the fenced pattern matches,
or `none` when no fenced JSON block matches anywhere in the output. -/
def extractJsonBlock (stdout : String) : Option String :=
  (extractLoop stdout.data).map String.mk

/-- The typed verdict `processPullRequest` builds from the agent's metrics
JSON (src/claude.js): `isLgtm` and `isReviewFailed` by strict comparison
with `true`, `issueCount` only when the field is a number, and
`failedReviewReason` through `reviewMetrics.failedReviewReason || null`. -/
structure ReviewVerdict where
  isLgtm : Bool
  issueCountM : Int
  issueCountE : Int
  isReviewFailed : Bool
  failedReviewReason : Option Json
deriving Repr

/-- Conservative verdict used when no fenced JSON block is found. -/
def conservativeVerdict : ReviewVerdict :=
  { isLgtm := false, issueCountM := 0, issueCountE := 0,
    isReviewFailed := false, failedReviewReason := none }

/-- Field extraction from the parsed metrics object, following
src/claude.js lines 173-177 exactly. -/
def verdictOfJson (j : Json) : ReviewVerdict :=
  { isLgtm := match jGet j "isLgtm" with | some (.bool true) => true | _ => false
    issueCountM :=
      match jGet j "issueCount" with
      | some (.num m _) => m
      | _ => 0
    issueCountE :=
      match jGet j "issueCount" with
      | some (.num _ e) => e
      | _ => 0
    isReviewFailed := match jGet j "isReviewFailed" with | some (.bool true) => true | _ => false
    failedReviewReason :=
      match jGet j "failedReviewReason" with
      | some v => if jsTruthy v then some v else none
      | none => none }

/-- Result interpretation of the captured agent stdout (src/claude.js):
when the regex finds a fenced JSON block, `JSON.parse` it — a parse
failure is rethrown as `Failed to parse metrics JSON`; when no block is
found, fall back to the conservative defaults without throwing. -/
def interpretClaudeOutput (stdout : String) : Except String ReviewVerdict :=
  match extractJsonBlock stdout with
  | some blockText =>
    match parseJson blockText with
    | some j => .ok (verdictOfJson j)
    | none => .error "Failed to parse metrics JSON"
  | none => .ok conservativeVerdict

/-- Prometheus counter/histogram updates a review job can perform. -/
inductive MetricEvent where
  | reviewSuccess
  | reviewFailure (errorType : String)
  | durationObserve (status : String)
  | lgtm
  | issuesFound (m : Int) (e : Int)
deriving Repr, DecidableEq

/-- Metric recording for an interpreted verdict (src/claude.js lines
192-214): an `isReviewFailed` verdict increments the failure counter
(error type `claude_reported` when a reason is present, else `unknown`)
and skips the success counter; otherwise the success counter and the
success-duration histogram are updated; `isLgtm` and a positive
`issueCount` additionally update their counters in both cases. -/
def recordVerdictMetrics (v : ReviewVerdict) : List MetricEvent :=
  (if v.isReviewFailed then
    [.reviewFailure (if v.failedReviewReason.isSome then "claude_reported" else "unknown")]
   else
    [.reviewSuccess, .durationObserve "success"])
  ++ (if v.isLgtm then [.lgtm] else [])
  ++ (if v.issueCountM > 0 then [.issuesFound v.issueCountM v.issueCountE] else [])

/-! ## Review Request Queue (src/index.js)

`reviewQueue` is an array and `isProcessing` a boolean flag.  `processQueue`
returns immediately when the flag is set or the queue is empty; otherwise it
sets the flag, `shift`s the head off the queue, awaits the job, clears the
flag and recurses.  JavaScript is single-threaded, so the only interleaving
point is the `await`: while a job is in flight, webhook handlers may push
further jobs and call `processQueue` (which then hits the `isProcessing`
guard).  The model makes the two atomic transitions explicit: an `enqueue`
event (push + `processQueue` call) and a `finish` event (the awaited job
settles — successfully or with a caught error — then flag clear +
`processQueue` call).  `current` holds the job(s) popped and being
processed, `done` the completed jobs, `arrived` the full arrival history.
-/

/-- State of the queue system: the pending array, the processing flag, the
jobs currently being processed, the completed jobs and the arrival log. -/
structure QueueState where
  queue : List Nat
  isProcessing : Bool
  current : List Nat
  done : List Nat
  arrived : List Nat
deriving Repr, DecidableEq

/-- Initial state: empty queue, idle worker. -/
def initQueueState : QueueState :=
  { queue := [], isProcessing := false, current := [], done := [], arrived := [] }

/-- The body of `processQueue` up to the `await`: return if already
processing or the queue is empty, otherwise set the flag and shift the
first item off the queue into processing. -/
def processQueueStep (s : QueueState) : QueueState :=
  if s.isProcessing || s.queue.isEmpty then s
  else
    match s.queue with
    | [] => s
    | j :: rest =>
      { s with isProcessing := true, current := s.current ++ [j], queue := rest }

/-- A webhook acceptance: `reviewQueue.push(prData)` followed by the
synchronous `processQueue()` call. -/
def enqueueJob (j : Nat) (s : QueueState) : QueueState :=
  processQueueStep { s with queue := s.queue ++ [j], arrived := s.arrived ++ [j] }

/-- The awaited `processPullRequest` settles: whether it resolved or threw
(`failed`), the catch block only logs, then `isProcessing = false` and
`processQueue()` runs again.  With no job in flight the event is a no-op. -/
def finishJob (failed : Bool) (s : QueueState) : QueueState :=
  match s.current with
  | [j] =>
    let _ := failed
    processQueueStep { s with current := [], isProcessing := false, done := s.done ++ [j] }
  | _ => s

/-- The events that can hit the queue system. -/
inductive QueueEvent where
  | enqueue (j : Nat)
  | finish (failed : Bool)
deriving Repr, DecidableEq

/-- One event transition. -/
def queueStep (s : QueueState) : QueueEvent → QueueState
  | .enqueue j => enqueueJob j s
  | .finish failed => finishJob failed s

/-- Run a sequence of events from the initial state. -/
def runQueue (events : List QueueEvent) : QueueState :=
  events.foldl queueStep initQueueState

/-- The queue invariant: at most one job is in processing; the flag is set
exactly when a job is in flight; the arrival order is exactly the completed
jobs, then the in-flight job, then the waiting queue (so processing is FIFO
and the queue holds only waiting jobs); and an idle worker means an empty
queue. -/
def QueueInv (s : QueueState) : Prop :=
  s.current.length ≤ 1 ∧
  (s.isProcessing = true ↔ s.current ≠ []) ∧
  s.arrived = s.done ++ s.current ++ s.queue ∧
  (s.isProcessing = false → s.queue = [])

/-! ## Webhook ingress: signature and workspace checks (src/index.js)

`verifyBitbucketSignature` computes `expected = "sha256=" + hmac-sha256-hex`
over the raw body and compares with `crypto.timingSafeEqual` on the two
UTF-8 buffers.  The HMAC digest itself is an opaque cryptographic value
here, so the model takes the hex digest as an input; the rest of the
function is modelled exactly.  Crucially, `crypto.timingSafeEqual` throws
`ERR_CRYPTO_TIMING_SAFE_EQUAL_LENGTH` when the two buffers differ in byte
length; a throw inside this synchronous Express middleware is caught by
Express and answered by the default error handler with status 500.
-/

/-- Result of `verifyBitbucketSignature(signature, payload, secret)` given
`digest`, the hex HMAC-SHA256 of the payload under the secret.  `Except` is
the `timingSafeEqual` length exception. -/
def verifyBitbucketSignature (digest signatureHeader secret : String) : Except String Bool :=
  if signatureHeader = "" || secret = "" then .ok false
  else
    let expected := "sha256=" ++ digest
    if signatureHeader.utf8ByteSize ≠ expected.utf8ByteSize then
      .error "ERR_CRYPTO_TIMING_SAFE_EQUAL_LENGTH"
    else .ok (signatureHeader = expected)

/-- Outcome of the signature stage of the `validateBitbucketWebhook`
middleware, as the HTTP response the caller sees. -/
inductive SignatureStageResult where
  | unauthorizedMissing
  | unauthorizedInvalid
  | internalError (msg : String)
  | pass
deriving Repr, DecidableEq

/-- Signature stage of `validateBitbucketWebhook`: when a nonempty secret
is configured, a missing `X-Hub-Signature` header is answered 401, a
failed verification is answered 401, a verification exception becomes an
Express 500; with no (or an empty, hence falsy) secret the stage is
skipped with a warning. -/
def signatureStage (secret : Option String) (signatureHeader : Option String)
    (digest : String) : SignatureStageResult :=
  match secret with
  | none => .pass
  | some sec =>
    if sec = "" then .pass
    else
      match signatureHeader with
      | none => .unauthorizedMissing
      | some sig =>
        match verifyBitbucketSignature digest sig sec with
        | .error e => .internalError e
        | .ok true => .pass
        | .ok false => .unauthorizedInvalid

/-- Strict equality `===` of a JSON value with another primitive value,
as used by the workspace comparison (objects and arrays are compared by
reference in JavaScript, hence never equal to a string). -/
def jsonStrictEq : Json → Json → Bool
  | .null, .null => true
  | .bool a, .bool b => a = b
  | .num m1 e1, .num m2 e2 => m1 = m2 && e1 = e2
  | .str a, .str b => a = b
  | _, _ => false

/-- JavaScript `a || b` on possibly-undefined values. -/
def jsOrOpt (a b : Option Json) : Option Json :=
  match a with
  | some v => if jsTruthy v then some v else b
  | none => b

/-- The workspace identifier of `validateBitbucketWebhook`:
`req.body.repository?.workspace?.slug || req.body.repository?.owner?.username`. -/
def workspaceOf (body : Json) : Option Json :=
  jsOrOpt (jPath body ["repository", "workspace", "slug"])
    (jPath body ["repository", "owner", "username"])

/-- Workspace stage of `validateBitbucketWebhook`: reject with 403 exactly
when the workspace value is truthy and not strictly equal to the allowed
workspace string (`if (workspace && workspace !== ALLOWED_WORKSPACE)`).
Returns `true` when the request is rejected with 403. -/
def workspaceRejected (body : Json) (allowedWorkspace : String) : Bool :=
  match workspaceOf body with
  | some v => jsTruthy v && !(jsonStrictEq v (.str allowedWorkspace))
  | none => false

/-! ## Payload Validator (src/schemas.js)

The Zod schema `BitbucketPayloadSchema` is modelled as a function from the
parsed JSON body to the list of paths of violated fields; the payload is
accepted iff the list is empty.  Zod collects all issues instead of
stopping at the first one, which the list concatenation mirrors.  The
opaque library check `z.string().url()` is taken as a parameter `isUrl`.
-/

/-- The safe-branch-name character class of src/schemas.js: ASCII
letters, digits, underscore, dot, slash and hyphen. -/
def isSafeBranchChar (c : Char) : Bool :=
  c.isAlpha || c.isDigit || c = '_' || c = '.' || c = '/' || c = '-'

/-- Whether a string matches the safe-branch-name regex (nonempty, all
characters in the class). -/
def safeBranchString (s : String) : Bool :=
  !s.data.isEmpty && s.data.all isSafeBranchChar

/-- Check `z.string()` at a field. -/
def checkString (path : String) : Option Json → List String
  | some (.str _) => []
  | _ => [path]

/-- Check `z.string().min(1)` at a field. -/
def checkNonemptyString (path : String) : Option Json → List String
  | some (.str s) => if s = "" then [path] else []
  | _ => [path]

/-- Check the branch-name field: `z.string()` restricted to the safe
branch-name regex. -/
def checkBranchName (path : String) : Option Json → List String
  | some (.str s) => if safeBranchString s then [] else [path]
  | _ => [path]

/-- Check `z.string().url()` at a field, with the URL test opaque. -/
def checkUrl (isUrl : String → Bool) (path : String) : Option Json → List String
  | some (.str s) => if isUrl s then [] else [path]
  | _ => [path]

/-- Check `z.string().optional().nullable()` at a field. -/
def checkOptionalString (path : String) : Option Json → List String
  | none => []
  | some .null => []
  | some (.str _) => []
  | some _ => [path]

/-- Check a required `z.object(...)` field, running the inner checks on the
object value. -/
def checkObjField (path : String) (inner : Json → List String) : Option Json → List String
  | some j =>
    match j with
    | .obj _ => inner j
    | _ => [path]
  | none => [path]

/-- Check the elements of the `clone` array from index `i` on: each must
be an object with a string `name` and a URL `href`. -/
def checkCloneElems (isUrl : String → Bool) (path : String) (i : Nat) :
    List Json → List String
  | [] => []
  | x :: rest =>
    (match x with
     | .obj _ =>
       checkString (path ++ "." ++ toString i ++ ".name") (jGet x "name") ++
       checkUrl isUrl (path ++ "." ++ toString i ++ ".href") (jGet x "href")
     | _ => [path ++ "." ++ toString i]) ++
    checkCloneElems isUrl path (i + 1) rest

/-- Check the optional `clone` array of `\x7bname, href\x7d` objects. -/
def checkCloneArray (isUrl : String → Bool) (path : String) : Option Json → List String
  | none => []
  | some (.arr xs) => checkCloneElems isUrl path 0 xs
  | some _ => [path]

/-- The `BitbucketPayloadSchema` of src/schemas.js: the list of violated
field paths of a parsed webhook body (empty iff `parse` succeeds). -/
def BitbucketPayloadSchema (isUrl : String → Bool) (j : Json) : List String :=
  match j with
  | .obj _ =>
    checkObjField "pullrequest" (fun pr =>
      checkNonemptyString "pullrequest.title" (jGet pr "title") ++
      checkOptionalString "pullrequest.description" (jGet pr "description") ++
      checkObjField "pullrequest.author" (fun a =>
        checkString "pullrequest.author.display_name" (jGet a "display_name"))
        (jGet pr "author") ++
      checkObjField "pullrequest.source" (fun src =>
        checkObjField "pullrequest.source.branch" (fun b =>
          checkBranchName "pullrequest.source.branch.name" (jGet b "name"))
          (jGet src "branch"))
        (jGet pr "source") ++
      checkObjField "pullrequest.destination" (fun dst =>
        checkObjField "pullrequest.destination.branch" (fun b =>
          checkBranchName "pullrequest.destination.branch.name" (jGet b "name"))
          (jGet dst "branch"))
        (jGet pr "destination") ++
      checkObjField "pullrequest.links" (fun l =>
        checkObjField "pullrequest.links.html" (fun h =>
          checkUrl isUrl "pullrequest.links.html.href" (jGet h "href"))
          (jGet l "html"))
        (jGet pr "links"))
      (jGet j "pullrequest") ++
    checkObjField "repository" (fun r =>
      checkString "repository.name" (jGet r "name") ++
      checkObjField "repository.links" (fun l =>
        checkCloneArray isUrl "repository.links.clone" (jGet l "clone") ++
        checkObjField "repository.links.html" (fun h =>
          checkUrl isUrl "repository.links.html.href" (jGet h "href"))
          (jGet l "html"))
        (jGet r "links"))
      (jGet j "repository")
  | _ => ["<root>"]

/-- Outcome of the payload-validation step of the webhook handler
(src/index.js): a Zod failure is answered 400 with the issue details and
nothing is enqueued; on success the handler proceeds with the typed
payload. -/
inductive ValidationStageResult where
  | badRequest (details : List String)
  | accepted
deriving Repr, DecidableEq

/-- The `BitbucketPayloadSchema.parse(req.body)` step of the webhook
handler: reject with 400 and the violation details, or proceed. -/
def payloadValidationStage (isUrl : String → Bool) (j : Json) : ValidationStageResult :=
  match BitbucketPayloadSchema isUrl j with
  | [] => .accepted
  | errs => .badRequest errs

/-! ## Repository Synchronizer and Diff Extractor (src/git.js)

Filesystem and git effects are modelled by an oracle (`GitWorld`) giving
the outcome of each external operation, together with an explicit trace of
the operations performed, so ordering and absence of operations are
provable.  `deleteDir` is in the operation alphabet but is never emitted:
the synchronizer never deletes a working copy.
-/

/-- External operations the synchronizer and diff extractor can perform. -/
inductive GitOp where
  | checkExists (projectName : String)
  | clone (cloneUrl : String) (projectName : String)
  | fetchAll (projectName : String)
  | resetHard (projectName : String) (ref : String)
  | fetchBranches (projectName : String) (src : String) (dst : String)
  | mergeBase (projectName : String) (dstRef : String) (srcRef : String)
  | diff (projectName : String) (base : String) (target : String)
  | deleteDir (projectName : String)
deriving Repr, DecidableEq

/-- Oracle for the outcomes of the external operations. -/
structure GitWorld where
  projectDirExists : Bool
  cloneOk : Bool
  fetchAllOk : Bool
  resetOk : Bool
  fetchBranchesOk : Bool
  mergeBaseResult : Except String String
  diffResult : Except String String
deriving Repr

/-- The repository data `processPullRequest` passes to the synchronizer.
`sourceBranch` is `none` when the field is absent (`undefined`). -/
structure RepoData where
  name : String
  cloneUrl : String
  sourceBranch : Option String
deriving Repr, DecidableEq

/-- JavaScript falsiness of an optional string (`undefined` or `""`). -/
def jsStrFalsy : Option String → Bool
  | none => true
  | some s => s = ""

/-- Result of `ensureProjectExists`: the returned object, or the error it
throws (a clone failure is rethrown by `cloneRepository`). -/
inductive EnsureResult where
  | failure (message : String)
  | updated (path : String)
  | cloned (path : String)
  | thrown (message : String)
deriving Repr, DecidableEq

/-- Whether an `EnsureResult` is a return value with `success: true`. -/
def EnsureResult.isSuccess : EnsureResult → Bool
  | .updated _ => true
  | .cloned _ => true
  | _ => false

/-- The projects directory of src/git.js. -/
def PROJECTS_DIR : String := "/app/projects"

/-- Model of `ensureProjectExists(repoData)` of src/git.js: reject a falsy
`sourceBranch` before any filesystem operation; clone (and stop) when the
project directory does not exist; otherwise `git fetch --all` then
`git reset --hard origin/<sourceBranch>`, catching fetch/reset failures
into a `success: false` return that leaves the working copy in place. -/
def ensureProjectExists (w : GitWorld) (repoData : RepoData) : EnsureResult × List GitOp :=
  if jsStrFalsy repoData.sourceBranch then
    (.failure "Source branch is required", [])
  else
    let projectPath := PROJECTS_DIR ++ "/" ++ repoData.name
    if w.projectDirExists then
      if w.fetchAllOk then
        if w.resetOk then
          (.updated projectPath,
           [.checkExists repoData.name, .fetchAll repoData.name,
            .resetHard repoData.name ("origin/" ++ repoData.sourceBranch.getD "")])
        else
          (.failure "Project exists (update failed but continuing)",
           [.checkExists repoData.name, .fetchAll repoData.name,
            .resetHard repoData.name ("origin/" ++ repoData.sourceBranch.getD "")])
      else
        (.failure "Project exists (update failed but continuing)",
         [.checkExists repoData.name, .fetchAll repoData.name])
    else
      if w.cloneOk then
        (.cloned projectPath,
         [.checkExists repoData.name, .clone repoData.cloneUrl repoData.name])
      else
        (.thrown "Failed to clone repository",
         [.checkExists repoData.name, .clone repoData.cloneUrl repoData.name])

/-- JavaScript `String.prototype.trim()`: strip leading and trailing
whitespace (the regex whitespace class plus line terminators, which
`isJsRegexWs` already contains). -/
def trimJs (s : String) : String :=
  String.mk (((s.data.dropWhile isJsRegexWs).reverse.dropWhile isJsRegexWs).reverse)

/-- Result of `getDiffFromMergeBase`. -/
inductive DiffExtractionResult where
  | ok (diffText : String) (mergeBase : String)
  | thrown (message : String)
deriving Repr, DecidableEq

/-- Model of `getDiffFromMergeBase(projectPath, sourceBranch,
destinationBranch)` of src/git.js: fetch the two branches, compute
`git merge-base origin/<dst> origin/<src>` (falling back to
`origin/<dst>` as the base when merge-base fails), then diff
`<base>..origin/<src>`. -/
def getDiffFromMergeBase (w : GitWorld) (projectName sourceBranch destinationBranch : String) :
    DiffExtractionResult × List GitOp :=
  if w.fetchBranchesOk then
    let fetchOps := [GitOp.fetchBranches projectName sourceBranch destinationBranch]
    let (base, mbOps) :=
      match w.mergeBaseResult with
      | .ok out => (trimJs out, [GitOp.mergeBase projectName ("origin/" ++ destinationBranch) ("origin/" ++ sourceBranch)])
      | .error _ => ("origin/" ++ destinationBranch, [GitOp.mergeBase projectName ("origin/" ++ destinationBranch) ("origin/" ++ sourceBranch)])
    match w.diffResult with
    | .ok diffText =>
      (.ok diffText base,
       fetchOps ++ mbOps ++ [GitOp.diff projectName base ("origin/" ++ sourceBranch)])
    | .error e =>
      (.thrown ("Failed to get diff from merge-base: " ++ e),
       fetchOps ++ mbOps ++ [GitOp.diff projectName base ("origin/" ++ sourceBranch)])
  else
    (.thrown "Failed to get diff from merge-base: fetch failed",
     [GitOp.fetchBranches projectName sourceBranch destinationBranch])

/-! ## Review Invoker supervision and failure classification (src/claude.js)

The spawned agent process races against a `setTimeout` timer of
`timeoutMinutes * 60 * 1000` milliseconds.  The model is driven by a
behaviour oracle: either the process closes at a given millisecond with an
exit code, or it is still running when the timer fires.  The outer catch of
`processPullRequest` classifies the failure by substring search on the
error message.
-/

/-- The configured timeout in minutes: `parseInt(CLAUDE_TIMEOUT_CONFIG)`
when it is a positive number, else 10. -/
def effectiveTimeoutMinutes (config : Option Nat) : Nat :=
  match config with
  | some n => if n = 0 then 10 else n
  | none => 10

/-- Behaviour of the spawned agent process in one run. -/
inductive AgentBehavior where
  | closesAt (ms : Nat) (exitCode : Nat)
  | neverCloses
deriving Repr, DecidableEq

/-- Outcome of the supervised invocation promise. -/
inductive InvocationOutcome where
  | resolved (timerCancelled : Bool)
  | rejectedNonZero (timerCancelled : Bool) (message : String)
  | timedOut (sigtermSent : Bool) (message : String)
deriving Repr, DecidableEq

/-- The timeout error message of src/claude.js. -/
def timeoutErrorMessage (timeoutMinutes : Nat) : String :=
  "Claude analysis timed out after " ++ toString timeoutMinutes ++
  " minutes. The PR might be too large or complex."

/-- Supervision of the spawned agent (src/claude.js): on `close` before
the timer fires, `clearTimeout` then resolve (code 0) or reject; when the
timer fires first, `SIGTERM` is sent and the promise rejects with the
timeout message carrying the configured duration. -/
def superviseAgent (timeoutMinutes : Nat) (b : AgentBehavior) : InvocationOutcome :=
  match b with
  | .closesAt ms code =>
    if ms < timeoutMinutes * 60 * 1000 then
      if code = 0 then .resolved true
      else .rejectedNonZero true ("Claude CLI exited with code " ++ toString code)
    else .timedOut true (timeoutErrorMessage timeoutMinutes)
  | .neverCloses => .timedOut true (timeoutErrorMessage timeoutMinutes)

/-- Boolean substring containment, as JavaScript `String.includes`. -/
def strIncludes (hay needle : String) : Bool :=
  hay.data.tails.any (fun t => needle.data.isPrefixOf t)

/-- The `error_type` classification of the outer catch of
`processPullRequest`: message contains `timeout` → `timeout`, else
contains `clone` → `git_error`, else `unknown`. -/
def classifyErrorType (message : String) : String :=
  if strIncludes message "timeout" then "timeout"
  else if strIncludes message "clone" then "git_error"
  else "unknown"

/-- What the worker records for a job whose processing threw: the failure
counter with the classified error type and a failure-duration histogram
observation (outer catch of `processPullRequest`). -/
def recordJobError (message : String) : List MetricEvent :=
  [.reviewFailure (classifyErrorType message), .durationObserve "failure"]

/-- The synchronizer step of `processPullRequest`: a `success: false`
return from `ensureProjectExists` raises `Failed to ensure project
exists`, a thrown clone error propagates, a success yields the path. -/
def synchronizeStep (w : GitWorld) (repoData : RepoData) : Except String String :=
  match ensureProjectExists w repoData with
  | (.updated path, _) => .ok path
  | (.cloned path, _) => .ok path
  | (.failure _, _) => .error "Failed to ensure project exists"
  | (.thrown msg, _) => .error msg

/-! ## Helper lemmas -/

/-- A successful `jGet` forces the value to be an object. -/
theorem jGet_some_obj {j : Json} {k : String} {v : Json} (h : jGet j k = some v) :
    ∃ fields, j = .obj fields := by
  cases j with
  | obj fields => exact ⟨fields, rfl⟩
  | null => simp [jGet] at h
  | bool b => simp [jGet] at h
  | num m e => simp [jGet] at h
  | str s => simp [jGet] at h
  | arr xs => simp [jGet] at h

/-- On a verdict with the failure flag set, the metric recording contains
a review-failure increment and no review-success increment. -/
theorem recordVerdictMetrics_of_failed {v : ReviewVerdict} (h : v.isReviewFailed = true) :
    MetricEvent.reviewFailure
      (if v.failedReviewReason.isSome then "claude_reported" else "unknown")
      ∈ recordVerdictMetrics v ∧
    MetricEvent.reviewSuccess ∉ recordVerdictMetrics v := by
  unfold recordVerdictMetrics
  rw [h]
  constructor
  · simp
  · simp only [if_true, List.mem_append, List.mem_singleton]
    intro hmem
    rcases hmem with hmem | hmem
    · rcases hmem with hmem | hmem
      · simp at hmem
      · by_cases hl : v.isLgtm = true <;> simp [hl] at hmem
    · by_cases hc : v.issueCountM > 0 <;> simp [hc] at hmem

/-! ## C1 — conservative interpretation of unparseable output -/

/-- C1, counterexample: on a captured stdout that does contain a fenced
JSON block whose content fails to parse, interpretation does not complete
with the conservative verdict — it raises the `Failed to parse metrics
JSON` error, contradicting the claim that interpretation never throws
when the output contains no parseable fenced JSON block. -/
theorem C1_counterexample :
    interpretClaudeOutput "review\n```json\n\x7binvalid\x7d\n```\n" =
      .error "Failed to parse metrics JSON" := by
  rfl

/-- C1, amended: when no fenced JSON block matches at all, interpretation
completes without error with the conservative verdict
(`isApproved=false`, `issueCount=0`, `isFailed=false`); when a fenced
block is present but its content fails to parse, interpretation raises
the `Failed to parse metrics JSON` error (which the worker boundary
catches, so the worker loop itself still survives). -/
theorem C1_interpret_conservative_or_throw :
    (∀ s : String, extractJsonBlock s = none →
      interpretClaudeOutput s = .ok conservativeVerdict) ∧
    (∀ s b, extractJsonBlock s = some b → parseJson b = none →
      interpretClaudeOutput s = .error "Failed to parse metrics JSON") := by
  constructor
  · intro s h
    simp [interpretClaudeOutput, h]
  · intro s b h hp
    simp [interpretClaudeOutput, h, hp]

/-- C1, witness: both branches of the amended statement at concrete
outputs. -/
theorem C1_witness :
    interpretClaudeOutput "no fenced block here" = .ok conservativeVerdict ∧
    interpretClaudeOutput "```json\n\x7bnot json\x7d\n```" =
      .error "Failed to parse metrics JSON" :=
  ⟨C1_interpret_conservative_or_throw.1 "no fenced block here" rfl,
   C1_interpret_conservative_or_throw.2 "```json\n\x7bnot json\x7d\n```" "\x7bnot json\x7d"
     rfl rfl⟩

/-! ## C2 — failure flag precedence -/

/-- C2, counterexample: an agent output whose final fenced JSON block sets
`isReviewFailed=true` but is preceded by another fenced block; the code's
regex (`String.match` without the global flag) takes the first block, so
the job is recorded as a success (success counter incremented, failure
counter untouched), contradicting the claim about the final block. -/
theorem C2_counterexample :
    extractJsonBlock
        "```json\n\x7b\"isLgtm\":true,\"issueCount\":0\x7d\n```\ntext\n```json\n\x7b\"isReviewFailed\":true,\"failedReviewReason\":\"x\"\x7d\n```"
      = some "\x7b\"isLgtm\":true,\"issueCount\":0\x7d" ∧
    (interpretClaudeOutput
        "```json\n\x7b\"isLgtm\":true,\"issueCount\":0\x7d\n```\ntext\n```json\n\x7b\"isReviewFailed\":true,\"failedReviewReason\":\"x\"\x7d\n```").map
        recordVerdictMetrics
      = .ok [.reviewSuccess, .durationObserve "success", .lgtm] := by
  constructor <;> rfl

/-- C2, amended: for every agent output whose first matching fenced JSON
block parses to an object with `isReviewFailed=true`, the job is recorded
as a review failure — the failure counter is incremented and the success
counter is not — even when the same block also sets `isLgtm=true` or a
nonzero `issueCount`. -/
theorem C2_failure_flag_precedence :
    ∀ s b j, extractJsonBlock s = some b → parseJson b = some j →
      jGet j "isReviewFailed" = some (.bool true) →
      ∃ v, interpretClaudeOutput s = .ok v ∧
        (∃ errorType, MetricEvent.reviewFailure errorType ∈ recordVerdictMetrics v) ∧
        MetricEvent.reviewSuccess ∉ recordVerdictMetrics v := by
  intro s b j hb hp hf
  refine ⟨verdictOfJson j, ?_, ?_, ?_⟩
  · simp [interpretClaudeOutput, hb, hp]
  · exact ⟨_, (recordVerdictMetrics_of_failed (by simp [verdictOfJson, hf])).1⟩
  · exact (recordVerdictMetrics_of_failed (by simp [verdictOfJson, hf])).2

/-- C2, witness: the amended statement applied to a concrete output whose
block sets `isReviewFailed=true` together with `isLgtm=true` and a
nonzero `issueCount`. -/
theorem C2_witness :
    ∃ v, interpretClaudeOutput
        "```json\n\x7b\"isReviewFailed\":true,\"failedReviewReason\":\"x\",\"isLgtm\":true,\"issueCount\":2\x7d\n```"
        = .ok v ∧
      (∃ errorType, MetricEvent.reviewFailure errorType ∈ recordVerdictMetrics v) ∧
      MetricEvent.reviewSuccess ∉ recordVerdictMetrics v :=
  C2_failure_flag_precedence
    "```json\n\x7b\"isReviewFailed\":true,\"failedReviewReason\":\"x\",\"isLgtm\":true,\"issueCount\":2\x7d\n```"
    "\x7b\"isReviewFailed\":true,\"failedReviewReason\":\"x\",\"isLgtm\":true,\"issueCount\":2\x7d"
    (.obj [("isReviewFailed", .bool true), ("failedReviewReason", .str "x"),
           ("isLgtm", .bool true), ("issueCount", .num 2 0)])
    rfl rfl rfl

/-! ## C3 — queue invariants -/

/-- The initial state satisfies the queue invariant. -/
theorem queueInv_init : QueueInv initQueueState := by
  simp [QueueInv, initQueueState]

/-- One event preserves the queue invariant. -/
theorem queueInv_step {s : QueueState} (h : QueueInv s) (e : QueueEvent) :
    QueueInv (queueStep s e) := by
  obtain ⟨hlen, hiff, harr, hidle⟩ := h
  cases e with
  | enqueue j =>
    simp only [queueStep, enqueueJob, processQueueStep]
    by_cases hp : s.isProcessing
    · simp only [hp, Bool.true_or, if_true]
      refine ⟨hlen, by simpa using hiff.mp hp, by simp [harr], fun hfalse => by simp [hp] at hfalse⟩
    · have hp2 : s.isProcessing = false := by simpa using hp
      have hcur : s.current = [] := by
        by_contra hne
        have := hiff.mpr hne
        simp [hp2] at this
      have hq : s.queue = [] := hidle hp2
      simp only [hq, hp2, Bool.false_or, List.nil_append, List.isEmpty_cons, if_false,
        Bool.false_eq_true]
      refine ⟨by simp [hcur], by simp [hcur], by simp [harr, hq, hcur], fun hfalse => by simp at hfalse⟩
  | finish failed =>
    simp only [queueStep, finishJob]
    cases hc : s.current with
    | nil =>
      simp only [hc]
      exact ⟨hlen, hiff, harr, hidle⟩
    | cons j rest =>
      cases rest with
      | cons j2 rest2 => simp [hc] at hlen
      | nil =>
        simp only [hc, processQueueStep, Bool.false_or]
        cases hq : s.queue with
        | nil =>
          simp only [List.isEmpty_nil, if_true]
          refine ⟨by simp, by simp, ?_, by simp⟩
          rw [harr, hc, hq]
          simp
        | cons k krest =>
          simp only [List.isEmpty_cons, if_false, Bool.false_eq_true]
          refine ⟨by simp, by simp, ?_, fun hfalse => by simp at hfalse⟩
          rw [harr, hc, hq]
          simp

/-- C3: every reachable state of the queue system — under any interleaving
of webhook enqueues and job completions — satisfies the queue invariant:
at most one job is in processing, the processing flag is set exactly while
a job is in flight, the arrival order equals completed jobs, then the
in-flight job, then the waiting queue (FIFO, and a job leaves the queue
the moment it starts processing, so the queue holds only waiting jobs),
and an idle worker has an empty queue. -/
theorem C3_queue_invariants (events : List QueueEvent) : QueueInv (runQueue events) := by
  unfold runQueue
  have : ∀ (evts : List QueueEvent) (s : QueueState), QueueInv s →
      QueueInv (evts.foldl queueStep s) := by
    intro evts
    induction evts with
    | nil => intro s hs; simpa using hs
    | cons e rest ih =>
      intro s hs
      exact ih _ (queueInv_step hs e)
  exact this events initQueueState queueInv_init

/-! ## C4 — a failing job never halts the worker -/

/-- While a job is in flight, enqueues only append to the queue and the
arrival log. -/
theorem foldl_enqueue_busy (js : List Nat) :
    ∀ s : QueueState, s.isProcessing = true →
      (js.map QueueEvent.enqueue).foldl queueStep s =
        { s with queue := s.queue ++ js, arrived := s.arrived ++ js } := by
  induction js with
  | nil => intro s hp; simp
  | cons j rest ih =>
    intro s hp
    simp only [List.map_cons, List.foldl_cons, queueStep, enqueueJob, processQueueStep, hp,
      Bool.true_or, if_true]
    rw [ih _ (by simp [hp])]
    simp

/-- Draining: with one job in flight and `q` waiting, any `1 + q.length`
completion events (each succeeding or failing arbitrarily) finish all
jobs in order and leave the system idle and empty. -/
theorem foldl_finish_drain (outs : List Bool) :
    ∀ (q : List Nat) (j : Nat) (d a : List Nat), outs.length = 1 + q.length →
      (outs.map QueueEvent.finish).foldl queueStep
          { queue := q, isProcessing := true, current := [j], done := d, arrived := a } =
        { queue := [], isProcessing := false, current := [], done := d ++ j :: q,
          arrived := a } := by
  induction outs with
  | nil =>
    intro q j d a hlen
    simp at hlen
    omega
  | cons o rest ih =>
    intro q j d a hlen
    simp only [List.map_cons, List.foldl_cons, queueStep, finishJob, processQueueStep]
    cases q with
    | nil =>
      have hrest : rest = [] := by simpa using hlen
      subst hrest
      simp
    | cons k krest =>
      simp only [List.isEmpty_cons, Bool.false_or, if_false, Bool.false_eq_true,
        List.nil_append]
      rw [ih krest k (d ++ [j]) a (by simp at hlen; omega)]
      simp

/-- C4: for any batch of jobs and any pattern of per-job outcomes (each
`processPullRequest` call resolving or throwing), running all enqueues and
then one completion event per job drains the whole queue: every enqueued
job is processed, in order, and the worker ends idle — no single job
failure ever prevents subsequent jobs from being processed. -/
theorem C4_failures_never_halt_worker (jobs : List Nat) (outcomes : List Bool)
    (h : outcomes.length = jobs.length) :
    runQueue (jobs.map QueueEvent.enqueue ++ outcomes.map QueueEvent.finish) =
      { queue := [], isProcessing := false, current := [], done := jobs,
        arrived := jobs } := by
  unfold runQueue
  rw [List.foldl_append]
  cases jobs with
  | nil =>
    have : outcomes = [] := by
      simpa using List.eq_nil_of_length_eq_zero (by simpa using h)
    subst this
    rfl
  | cons j js =>
    have hfirst : (QueueEvent.enqueue j :: js.map QueueEvent.enqueue).foldl queueStep
        initQueueState =
        { queue := js, isProcessing := true, current := [j], done := [],
          arrived := j :: js } := by
      simp only [List.foldl_cons, queueStep, enqueueJob, initQueueState, processQueueStep]
      rw [foldl_enqueue_busy js _ rfl]
      simp
    simp only [List.map_cons] at hfirst ⊢
    rw [hfirst, foldl_finish_drain outcomes js j [] (j :: js) (by simp at h; omega)]
    simp

/-- C4, witness: three concrete jobs with the middle one failing are all
processed in order. -/
theorem C4_witness :
    runQueue ([1, 2, 3].map QueueEvent.enqueue ++
        [true, false, true].map QueueEvent.finish) =
      { queue := [], isProcessing := false, current := [], done := [1, 2, 3],
        arrived := [1, 2, 3] } :=
  C4_failures_never_halt_worker [1, 2, 3] [true, false, true] rfl

/-! ## C5 — signature authentication -/

/-- C5, counterexample: with a secret configured, a wrong signature whose
byte length differs from the expected 71-byte value (`sha256=` plus 64 hex
characters) is not answered with 401: `crypto.timingSafeEqual` throws on
buffers of unequal length, and the synchronous middleware exception is
turned into a 500 response by Express.  The digest argument stands for
the hex HMAC-SHA256 of the body, which always has 64 characters. -/
theorem C5_counterexample :
    signatureStage (some "secret") (some "sha256=abc")
        (String.mk (List.replicate 64 'a')) =
      .internalError "ERR_CRYPTO_TIMING_SAFE_EQUAL_LENGTH" := by
  rfl

/-- C5, amended: with a nonempty secret configured, a request without the
`X-Hub-Signature` header is answered 401; a header value different from
`sha256=` followed by the hex HMAC digest is answered 401 when its UTF-8
byte length equals the expected value's, but makes `timingSafeEqual`
throw (an Express 500, not a 401) when the lengths differ; the correct
signature passes the check.  No rejected request reaches the enqueue
stage, which only a `pass` outcome does. -/
theorem C5_signature_stage :
    (∀ secret digest, secret ≠ "" →
      signatureStage (some secret) none digest = .unauthorizedMissing) ∧
    (∀ secret digest sig, secret ≠ "" → sig ≠ "" → sig ≠ "sha256=" ++ digest →
      sig.utf8ByteSize = ("sha256=" ++ digest).utf8ByteSize →
      signatureStage (some secret) (some sig) digest = .unauthorizedInvalid) ∧
    (∀ secret digest sig, secret ≠ "" → sig ≠ "" →
      sig.utf8ByteSize ≠ ("sha256=" ++ digest).utf8ByteSize →
      signatureStage (some secret) (some sig) digest =
        .internalError "ERR_CRYPTO_TIMING_SAFE_EQUAL_LENGTH") ∧
    (∀ secret digest, secret ≠ "" →
      signatureStage (some secret) (some ("sha256=" ++ digest)) digest = .pass) := by
  refine ⟨?_, ?_, ?_, ?_⟩
  · intro secret digest hsec
    simp [signatureStage, hsec]
  · intro secret digest sig hsec hsig hne hlen
    simp [signatureStage, hsec, verifyBitbucketSignature, hsig, hlen, hne]
  · intro secret digest sig hsec hsig hlen
    simp [signatureStage, hsec, verifyBitbucketSignature, hsig, hlen]
  · intro secret digest hsec
    have hne : ("sha256=" ++ digest) ≠ "" := by
      intro h
      have h2 : ("sha256=" ++ digest).length = 0 := by rw [h]; rfl
      rw [String.length_append] at h2
      have h7 : "sha256=".length = 7 := rfl
      rw [h7] at h2
      omega
    simp [signatureStage, hsec, verifyBitbucketSignature, hne]

/-- C5, witness: the four branches of the amended statement at concrete
inputs. -/
theorem C5_witness :
    signatureStage (some "k") none "d" = .unauthorizedMissing ∧
    signatureStage (some "k") (some "sha256=x") "y" = .unauthorizedInvalid ∧
    signatureStage (some "k") (some "a") "d" =
      .internalError "ERR_CRYPTO_TIMING_SAFE_EQUAL_LENGTH" ∧
    signatureStage (some "k") (some "sha256=d") "d" = .pass :=
  ⟨C5_signature_stage.1 "k" "d" (by decide),
   C5_signature_stage.2.1 "k" "y" "sha256=x" (by decide) (by decide) (by decide) (by decide),
   C5_signature_stage.2.2.1 "k" "d" "a" (by decide) (by decide) (by decide),
   C5_signature_stage.2.2.2 "k" "d" (by decide)⟩

/-! ## C10 — absent workspace identifier passes authorization -/

/-- C10: a webhook body carrying neither `repository.workspace.slug` nor
`repository.owner.username` passes the workspace check regardless of the
configured allow-list value (the middleware then proceeds to event
filtering, payload validation and enqueue); conversely a 403 rejection
happens only when one of the two identifiers is present, truthy, and not
strictly equal to the allowed workspace string. -/
theorem C10_absent_workspace_passes :
    (∀ (body : Json) (allowed : String),
      jPath body ["repository", "workspace", "slug"] = none →
      jPath body ["repository", "owner", "username"] = none →
      workspaceRejected body allowed = false) ∧
    (∀ (body : Json) (allowed : String), workspaceRejected body allowed = true →
      ∃ v, (jPath body ["repository", "workspace", "slug"] = some v ∨
            jPath body ["repository", "owner", "username"] = some v) ∧
        jsTruthy v = true ∧ v ≠ .str allowed) := by
  have hsome : ∀ (v : Json) (allowed : String),
      (jsTruthy v && !(jsonStrictEq v (.str allowed))) = true →
      jsTruthy v = true ∧ v ≠ Json.str allowed := by
    intro v allowed hv
    rw [Bool.and_eq_true] at hv
    refine ⟨hv.1, fun heq => ?_⟩
    subst heq
    simp [jsonStrictEq] at hv
  have hwsOf : ∀ (body : Json) (v : Json), workspaceOf body = some v →
      jPath body ["repository", "workspace", "slug"] = some v ∨
      jPath body ["repository", "owner", "username"] = some v := by
    intro body v hws
    unfold workspaceOf jsOrOpt at hws
    cases hslug : jPath body ["repository", "workspace", "slug"] with
    | some u =>
      rw [hslug] at hws
      have hws2 : (if jsTruthy u then some u
          else jPath body ["repository", "owner", "username"]) = some v := hws
      by_cases htr : jsTruthy u
      · rw [if_pos htr] at hws2
        exact Or.inl hws2
      · rw [if_neg htr] at hws2
        exact Or.inr hws2
    | none =>
      rw [hslug] at hws
      exact Or.inr hws
  constructor
  · intro body allowed hslug huser
    have hws : workspaceOf body = none := by
      unfold workspaceOf jsOrOpt
      rw [hslug, huser]
    unfold workspaceRejected
    rw [hws]
  · intro body allowed hrej
    unfold workspaceRejected at hrej
    cases hws : workspaceOf body with
    | some v =>
      rw [hws] at hrej
      have hv := hsome v allowed hrej
      exact ⟨v, hwsOf body v hws, hv.1, hv.2⟩
    | none =>
      rw [hws] at hrej
      exact absurd hrej (by simp)

/-- C10, witness: a body with no repository object at all passes the
check for an arbitrary allowed workspace. -/
theorem C10_witness :
    workspaceRejected (.obj [("pullrequest", .null)]) "xriopteam" = false :=
  C10_absent_workspace_passes.1 (.obj [("pullrequest", .null)]) "xriopteam" rfl rfl

/-! ## C7 — repository synchronizer algorithm -/

/-- C7: the synchronizer follows the specified algorithm.  A request with
a falsy `sourceBranch` is rejected before any filesystem operation (empty
trace).  When no local copy exists, the trace is exactly an existence
check followed by a clone — the terminal step, with no fetch or reset.
When a local copy exists and both git commands succeed, the trace is an
existence check, a fetch of all remote refs, then a hard reset to
`origin/<sourceBranch>`.  A fetch or reset failure yields a
`success: false` result — which `processPullRequest` turns into a failed
job rather than a crash — and the trace never contains a directory
deletion, so the working copy is preserved. -/
theorem C7_ensure_algorithm (w : GitWorld) (rd : RepoData) :
    (jsStrFalsy rd.sourceBranch = true →
      ensureProjectExists w rd = (.failure "Source branch is required", [])) ∧
    (jsStrFalsy rd.sourceBranch = false → w.projectDirExists = false →
      (ensureProjectExists w rd).2 = [.checkExists rd.name, .clone rd.cloneUrl rd.name] ∧
      (w.cloneOk = true →
        (ensureProjectExists w rd).1 = .cloned (PROJECTS_DIR ++ "/" ++ rd.name))) ∧
    (∀ b, rd.sourceBranch = some b → b ≠ "" → w.projectDirExists = true →
      w.fetchAllOk = true → w.resetOk = true →
      ensureProjectExists w rd =
        (.updated (PROJECTS_DIR ++ "/" ++ rd.name),
         [.checkExists rd.name, .fetchAll rd.name,
          .resetHard rd.name ("origin/" ++ b)])) ∧
    (jsStrFalsy rd.sourceBranch = false → w.projectDirExists = true →
      (w.fetchAllOk = false ∨ w.resetOk = false) →
      (ensureProjectExists w rd).1 = .failure "Project exists (update failed but continuing)" ∧
      (∀ name, GitOp.deleteDir name ∉ (ensureProjectExists w rd).2) ∧
      synchronizeStep w rd = .error "Failed to ensure project exists") := by
  refine ⟨?_, ?_, ?_, ?_⟩
  · intro hfalsy
    simp [ensureProjectExists, hfalsy]
  · intro hfalsy hdir
    constructor
    · cases hclone : w.cloneOk <;> simp [ensureProjectExists, hfalsy, hdir, hclone]
    · intro hclone
      simp [ensureProjectExists, hfalsy, hdir, hclone]
  · intro b hb hbne hdir hfetch hreset
    simp [ensureProjectExists, jsStrFalsy, hb, hbne, hdir, hfetch, hreset]
  · intro hfalsy hdir hfail
    rcases hfail with hfetch | hreset
    · refine ⟨?_, ?_, ?_⟩
      · simp [ensureProjectExists, hfalsy, hdir, hfetch]
      · intro name
        cases hreset : w.resetOk <;>
          simp [ensureProjectExists, hfalsy, hdir, hfetch, hreset]
      · cases hres : w.resetOk <;>
          simp [synchronizeStep, ensureProjectExists, hfalsy, hdir, hfetch, hres]
    · refine ⟨?_, ?_, ?_⟩
      · cases hfetch : w.fetchAllOk <;>
          simp [ensureProjectExists, hfalsy, hdir, hfetch, hreset]
      · intro name
        cases hfetch : w.fetchAllOk <;>
          simp [ensureProjectExists, hfalsy, hdir, hfetch, hreset]
      · cases hfetch : w.fetchAllOk <;>
          simp [synchronizeStep, ensureProjectExists, hfalsy, hdir, hfetch, hreset]

/-- C7, witness: the four branches at concrete worlds and repository
data. -/
theorem C7_witness :
    ensureProjectExists
        ⟨true, true, true, true, true, .ok "m", .ok "d"⟩
        ⟨"repo", "https://x/y.git", none⟩ =
      (.failure "Source branch is required", []) ∧
    (ensureProjectExists
        ⟨false, true, true, true, true, .ok "m", .ok "d"⟩
        ⟨"repo", "https://x/y.git", some "feat"⟩).2 =
      [.checkExists "repo", .clone "https://x/y.git" "repo"] ∧
    ensureProjectExists
        ⟨true, true, true, true, true, .ok "m", .ok "d"⟩
        ⟨"repo", "https://x/y.git", some "feat"⟩ =
      (.updated "/app/projects/repo",
       [.checkExists "repo", .fetchAll "repo", .resetHard "repo" "origin/feat"]) ∧
    synchronizeStep
        ⟨true, true, false, true, true, .ok "m", .ok "d"⟩
        ⟨"repo", "https://x/y.git", some "feat"⟩ =
      .error "Failed to ensure project exists" :=
  ⟨(C7_ensure_algorithm ⟨true, true, true, true, true, .ok "m", .ok "d"⟩
      ⟨"repo", "https://x/y.git", none⟩).1 rfl,
   ((C7_ensure_algorithm ⟨false, true, true, true, true, .ok "m", .ok "d"⟩
      ⟨"repo", "https://x/y.git", some "feat"⟩).2.1 rfl rfl).1,
   (C7_ensure_algorithm ⟨true, true, true, true, true, .ok "m", .ok "d"⟩
      ⟨"repo", "https://x/y.git", some "feat"⟩).2.2.1 "feat" rfl (by decide) rfl rfl rfl,
   ((C7_ensure_algorithm ⟨true, true, false, true, true, .ok "m", .ok "d"⟩
      ⟨"repo", "https://x/y.git", some "feat"⟩).2.2.2 rfl rfl (Or.inl rfl)).2.2⟩

/-! ## C8 — merge-base diff extraction -/

/-- C8: the diff extractor fetches the branches, computes the merge-base
of the two remote refs and diffs from that merge-base (trimmed) to
`origin/<sourceBranch>` — the recorded diff base is the merge-base
output, not the destination tip; and when the merge-base computation
fails, the extraction does not fail: the destination branch tip
`origin/<destinationBranch>` is used as the diff base instead, and a
successful diff still yields the result. -/
theorem C8_merge_base_diff (w : GitWorld) (p src dst : String) :
    (∀ mb, w.fetchBranchesOk = true → w.mergeBaseResult = .ok mb →
      (getDiffFromMergeBase w p src dst).2 =
        [.fetchBranches p src dst,
         .mergeBase p ("origin/" ++ dst) ("origin/" ++ src),
         .diff p (trimJs mb) ("origin/" ++ src)]) ∧
    (∀ e, w.fetchBranchesOk = true → w.mergeBaseResult = .error e →
      (getDiffFromMergeBase w p src dst).2 =
        [.fetchBranches p src dst,
         .mergeBase p ("origin/" ++ dst) ("origin/" ++ src),
         .diff p ("origin/" ++ dst) ("origin/" ++ src)] ∧
      (∀ d, w.diffResult = .ok d →
        (getDiffFromMergeBase w p src dst).1 = .ok d ("origin/" ++ dst))) := by
  constructor
  · intro mb hfetch hmb
    cases hd : w.diffResult <;>
      simp [getDiffFromMergeBase, hfetch, hmb, hd]
  · intro e hfetch hmb
    constructor
    · cases hd : w.diffResult <;>
        simp [getDiffFromMergeBase, hfetch, hmb, hd]
    · intro d hd
      simp [getDiffFromMergeBase, hfetch, hmb, hd]

/-- C8, witness: both branches at concrete worlds. -/
theorem C8_witness :
    (getDiffFromMergeBase ⟨true, true, true, true, true, .ok "abc123\n", .ok "difftext"⟩
        "repo" "feat" "main").2 =
      [.fetchBranches "repo" "feat" "main",
       .mergeBase "repo" "origin/main" "origin/feat",
       .diff "repo" "abc123" "origin/feat"] ∧
    (getDiffFromMergeBase ⟨true, true, true, true, true, .error "no ancestor", .ok "difftext"⟩
        "repo" "feat" "main").1 = .ok "difftext" "origin/main" :=
  ⟨(C8_merge_base_diff ⟨true, true, true, true, true, .ok "abc123\n", .ok "difftext"⟩
      "repo" "feat" "main").1 "abc123\n" rfl rfl |>.trans (by rfl),
   ((C8_merge_base_diff ⟨true, true, true, true, true, .error "no ancestor", .ok "difftext"⟩
      "repo" "feat" "main").2 "no ancestor" rfl rfl).2 "difftext" rfl⟩

/-! ## C9 — timeout supervision and its recorded error type -/

/-- C9: the supervision itself behaves as claimed — a process still
running when the timer fires is sent a termination signal and the
invocation fails with the timeout message carrying the configured
duration, while a process that closes in time has its timer cancelled —
but the job is then recorded with `error_type="unknown"`, not
`error_type="timeout"`: the outer catch classifies by
`error.message.includes('timeout')`, and the thrown message says
`timed out`, which does not contain the substring `timeout`.  This
contradicts both the claim and the repository's own PROMETHEUS.md. -/
theorem C9_timeout_error_type :
    superviseAgent (effectiveTimeoutMinutes none) .neverCloses =
      .timedOut true (timeoutErrorMessage 10) ∧
    superviseAgent (effectiveTimeoutMinutes none) (.closesAt 5000 0) = .resolved true ∧
    recordJobError (timeoutErrorMessage 10) =
      [.reviewFailure "unknown", .durationObserve "failure"] ∧
    classifyErrorType (timeoutErrorMessage 10) ≠ "timeout" := by
  refine ⟨rfl, rfl, rfl, ?_⟩
  intro h
  have : classifyErrorType (timeoutErrorMessage 10) = "unknown" := rfl
  rw [this] at h
  simp at h

/-! ## C6 — payload schema validation -/

/-- The concrete valid payload of tests/schemas.test.js
(`createValidPayload`). -/
def validTestBody : Json :=
  .obj [("pullrequest", .obj [
      ("title", .str "My Test PR"),
      ("description", .str "A test description"),
      ("author", .obj [("display_name", .str "Test User")]),
      ("source", .obj [("branch", .obj [("name", .str "feature/new-thing")])]),
      ("destination", .obj [("branch", .obj [("name", .str "main")])]),
      ("links", .obj [("html", .obj [("href", .str "https://bitbucket.org/team/repo/pull/1")])])]),
    ("repository", .obj [
      ("name", .str "repo"),
      ("links", .obj [
        ("clone", .arr [.obj [("name", .str "https"),
          ("href", .str "https://user@bitbucket.org/team/repo.git")]]),
        ("html", .obj [("href", .str "https://bitbucket.org/team/repo")])])])]

/-- C6: payload validation (a) rejects any body whose source or
destination branch name fails the safe-character class, naming the
offending field; (b) rejects any body missing a required field — title,
author display name, branch names, PR URL, repository name — naming that
field; (c) a Zod failure is answered with 400 carrying the field-level
details, and only an accepted body proceeds to enqueue; (d) the
schema-conforming test payload is accepted (given that the opaque URL
check passes on its three URLs). -/
theorem C6_payload_schema :
    (∀ (isUrl : String → Bool) (j pr src b : Json) (name : String),
      jGet j "pullrequest" = some pr → jGet pr "source" = some src →
      jGet src "branch" = some b → jGet b "name" = some (.str name) →
      safeBranchString name = false →
      "pullrequest.source.branch.name" ∈ BitbucketPayloadSchema isUrl j) ∧
    (∀ (isUrl : String → Bool) (j pr dst b : Json) (name : String),
      jGet j "pullrequest" = some pr → jGet pr "destination" = some dst →
      jGet dst "branch" = some b → jGet b "name" = some (.str name) →
      safeBranchString name = false →
      "pullrequest.destination.branch.name" ∈ BitbucketPayloadSchema isUrl j) ∧
    (∀ (isUrl : String → Bool) (j : Json) (prf : List (String × Json)),
      jGet j "pullrequest" = some (.obj prf) → jGet (.obj prf) "title" = none →
      "pullrequest.title" ∈ BitbucketPayloadSchema isUrl j) ∧
    (∀ (isUrl : String → Bool) (j pr : Json) (af : List (String × Json)),
      jGet j "pullrequest" = some pr → jGet pr "author" = some (.obj af) →
      jGet (.obj af) "display_name" = none →
      "pullrequest.author.display_name" ∈ BitbucketPayloadSchema isUrl j) ∧
    (∀ (isUrl : String → Bool) (j pr src : Json) (bf : List (String × Json)),
      jGet j "pullrequest" = some pr → jGet pr "source" = some src →
      jGet src "branch" = some (.obj bf) → jGet (.obj bf) "name" = none →
      "pullrequest.source.branch.name" ∈ BitbucketPayloadSchema isUrl j) ∧
    (∀ (isUrl : String → Bool) (j pr dst : Json) (bf : List (String × Json)),
      jGet j "pullrequest" = some pr → jGet pr "destination" = some dst →
      jGet dst "branch" = some (.obj bf) → jGet (.obj bf) "name" = none →
      "pullrequest.destination.branch.name" ∈ BitbucketPayloadSchema isUrl j) ∧
    (∀ (isUrl : String → Bool) (j pr l : Json) (hf : List (String × Json)),
      jGet j "pullrequest" = some pr → jGet pr "links" = some l →
      jGet l "html" = some (.obj hf) → jGet (.obj hf) "href" = none →
      "pullrequest.links.html.href" ∈ BitbucketPayloadSchema isUrl j) ∧
    (∀ (isUrl : String → Bool) (j : Json) (rf : List (String × Json)),
      jGet j "repository" = some (.obj rf) → jGet (.obj rf) "name" = none →
      "repository.name" ∈ BitbucketPayloadSchema isUrl j) ∧
    (∀ (isUrl : String → Bool) (j : Json), BitbucketPayloadSchema isUrl j ≠ [] →
      payloadValidationStage isUrl j = .badRequest (BitbucketPayloadSchema isUrl j)) ∧
    (∀ isUrl : String → Bool,
      isUrl "https://bitbucket.org/team/repo/pull/1" = true →
      isUrl "https://user@bitbucket.org/team/repo.git" = true →
      isUrl "https://bitbucket.org/team/repo" = true →
      BitbucketPayloadSchema isUrl validTestBody = [] ∧
      payloadValidationStage isUrl validTestBody = .accepted) := by
  refine ⟨?_, ?_, ?_, ?_, ?_, ?_, ?_, ?_, ?_, ?_⟩
  · intro isUrl j pr src b name hpr hsrc hbr hname hsafe
    obtain ⟨jf, rfl⟩ := jGet_some_obj hpr
    obtain ⟨prf, rfl⟩ := jGet_some_obj hsrc
    obtain ⟨srcf, rfl⟩ := jGet_some_obj hbr
    obtain ⟨bf, rfl⟩ := jGet_some_obj hname
    simp [BitbucketPayloadSchema, checkObjField, hpr, hsrc, hbr, hname,
      checkBranchName, hsafe]
  · intro isUrl j pr dst b name hpr hdst hbr hname hsafe
    obtain ⟨jf, rfl⟩ := jGet_some_obj hpr
    obtain ⟨prf, rfl⟩ := jGet_some_obj hdst
    obtain ⟨dstf, rfl⟩ := jGet_some_obj hbr
    obtain ⟨bf, rfl⟩ := jGet_some_obj hname
    simp [BitbucketPayloadSchema, checkObjField, hpr, hdst, hbr, hname,
      checkBranchName, hsafe]
  · intro isUrl j prf hpr htitle
    obtain ⟨jf, rfl⟩ := jGet_some_obj hpr
    simp [BitbucketPayloadSchema, checkObjField, hpr, htitle, checkNonemptyString]
  · intro isUrl j pr af hpr hauthor hdisp
    obtain ⟨jf, rfl⟩ := jGet_some_obj hpr
    obtain ⟨prf, rfl⟩ := jGet_some_obj hauthor
    simp [BitbucketPayloadSchema, checkObjField, hpr, hauthor, hdisp, checkString]
  · intro isUrl j pr src bf hpr hsrc hbr hname
    obtain ⟨jf, rfl⟩ := jGet_some_obj hpr
    obtain ⟨prf, rfl⟩ := jGet_some_obj hsrc
    obtain ⟨srcf, rfl⟩ := jGet_some_obj hbr
    simp [BitbucketPayloadSchema, checkObjField, hpr, hsrc, hbr, hname, checkBranchName]
  · intro isUrl j pr dst bf hpr hdst hbr hname
    obtain ⟨jf, rfl⟩ := jGet_some_obj hpr
    obtain ⟨prf, rfl⟩ := jGet_some_obj hdst
    obtain ⟨dstf, rfl⟩ := jGet_some_obj hbr
    simp [BitbucketPayloadSchema, checkObjField, hpr, hdst, hbr, hname, checkBranchName]
  · intro isUrl j pr l hf hpr hlinks hhtml hhref
    obtain ⟨jf, rfl⟩ := jGet_some_obj hpr
    obtain ⟨prf, rfl⟩ := jGet_some_obj hlinks
    obtain ⟨lf, rfl⟩ := jGet_some_obj hhtml
    simp [BitbucketPayloadSchema, checkObjField, hpr, hlinks, hhtml, hhref, checkUrl]
  · intro isUrl j rf hrep hname
    obtain ⟨jf, rfl⟩ := jGet_some_obj hrep
    simp [BitbucketPayloadSchema, checkObjField, hrep, hname, checkString]
  · intro isUrl j hne
    unfold payloadValidationStage
    cases hE : BitbucketPayloadSchema isUrl j with
    | nil => exact absurd hE hne
    | cons x xs => rfl
  · intro isUrl h1 h2 h3
    have hE : BitbucketPayloadSchema isUrl validTestBody = [] := by
      simp [BitbucketPayloadSchema, validTestBody, checkObjField, jGet,
        checkNonemptyString, checkOptionalString, checkString, checkBranchName,
        checkUrl, checkCloneArray, checkCloneElems, safeBranchString,
        isSafeBranchChar, h1, h2, h3]
    exact ⟨hE, by simp [payloadValidationStage, hE]⟩

/-- C6, witness: a payload with an unsafe source branch name is rejected
naming the branch field; the test payload is accepted with an
always-true URL check. -/
theorem C6_witness :
    "pullrequest.source.branch.name" ∈
      BitbucketPayloadSchema (fun _ => true)
        (.obj [("pullrequest", .obj [
            ("source", .obj [("branch", .obj [("name", .str "feature; rm -rf /")])])])]) ∧
    BitbucketPayloadSchema (fun _ => true) validTestBody = [] :=
  ⟨C6_payload_schema.1 (fun _ => true)
      (.obj [("pullrequest", .obj [
          ("source", .obj [("branch", .obj [("name", .str "feature; rm -rf /")])])])])
      (.obj [("source", .obj [("branch", .obj [("name", .str "feature; rm -rf /")])])])
      (.obj [("branch", .obj [("name", .str "feature; rm -rf /")])])
      (.obj [("name", .str "feature; rm -rf /")])
      "feature; rm -rf /" rfl rfl rfl rfl (by decide),
   ((C6_payload_schema.2.2.2.2.2.2.2.2.2) (fun _ => true) rfl rfl rfl).1⟩

end PrReviewer
